import Mathlib

set_option maxHeartbeats 1000000

/-!
A shallow embedding of the translation batching/retry pipeline and the
workflow state machine of src/ApkTranslator.py.

Python strings are modelled as lists of characters.  The mutable
ElementTree string tags are modelled as immutable StringTag records, and
the in-place mutations performed by the translation worker are modelled as
functions returning the updated record list.  The remote model's response
for the i-th adapter call (a nondeterministic external input) is supplied
by an oracle function from the call index to the returned string; the
outcome of the i-th network attempt inside the adapter is likewise
supplied by a function from the attempt index to a typed outcome.

The ElementTree XML library is an external collaborator (the spec treats
the string-table format as an ordered sequence of key/attribute/text
records), so serialization and parsing of a single string fragment are
modelled directly for fragments of the shape produced and consumed by the
program: an opening tag with attributes, flat text with no nested markup,
and a closing tag.
-/

/-- Python strings are modelled as lists of characters. -/
abbrev Str : Type := List Char

/-- The whitespace characters removed by Python str.strip(). -/
def isWS (c : Char) : Bool :=
  c == ' ' || c == '\t' || c == '\n' || c == '\r' || c == '\x0b' || c == '\x0c'

/-- Python str.strip(): remove leading and trailing whitespace. -/
def pyStrip (s : Str) : Str :=
  ((s.dropWhile isWS).reverse.dropWhile isWS).reverse

/-- Python substring containment, as in the test <pat in s>. -/
def containsSeq (pat s : Str) : Bool :=
  (List.range (s.length + 1)).any (fun i => pat.isPrefixOf (s.drop i))

/-- Fuel-driven worker for splitOnSeq.  The fuel argument is only a
termination device; it is always called with fuel at least the length of
the string, so the fuel-exhaustion branch is unreachable. -/
def splitGo (sep : Str) : Nat → Str → List Str
  | _, [] => [[]]
  | 0, s => [s]
  | fuel+1, c :: rest =>
    if !sep.isEmpty && sep.isPrefixOf (c :: rest) then
      [] :: splitGo sep fuel (rest.drop (sep.length - 1))
    else
      match splitGo sep fuel rest with
      | [] => [[c]]
      | t :: ts => (c :: t) :: ts

/-- Python str.split(sep) for a non-empty separator: split on
non-overlapping occurrences of sep, scanning left to right. -/
def splitOnSeq (sep s : Str) : List Str := splitGo sep s.length s

/-- XML_SEPARATOR from ApkTranslator.py line 22. -/
def XML_SEPARATOR : Str := "\n---\n".toList

/-- BATCH_SIZE from ApkTranslator.py line 21. -/
def BATCH_SIZE : Nat := 100

/-- API_MAX_RETRIES from ApkTranslator.py line 23. -/
def API_MAX_RETRIES : Nat := 3

/-- The substring tested by _worker_translate to classify a batch result
as a terminal adapter failure ("ERROR_" in combined_translation). -/
def ERRMARK : Str := "ERROR_".toList

/-- The sentinel prepended by _update_tags_from_response to the prior text
of a record whose fragment failed to parse. -/
def SENTINEL : Str := "TRANSLATION_ERROR: ".toList

/-- One string element of the parsed strings.xml document: its attribute
list (name and all other attributes, in document order) and its text
(ElementTree yields none for an element with no text content). -/
structure StringTag where
  attrs : List (Str × Str)
  text : Option Str
deriving DecidableEq

/-- Default StringTag used with List.getD. -/
def dTag : StringTag := ⟨[], none⟩

/-- Python f-string rendering of an optional string: None prints as
"None". -/
def pyFormatOptStr : Option Str → Str
  | none => "None".toList
  | some s => s

/-- The filter of _get_translatable_strings (line 425): keep a tag iff
tag.text is truthy (present and non-empty) and not
('%' in tag.text and ('s' in tag.text or 'd' in tag.text)). -/
def isTranslatable (t : StringTag) : Bool :=
  match t.text with
  | none => false
  | some s => !s.isEmpty && !(s.contains '%' && (s.contains 's' || s.contains 'd'))

/-- _get_translatable_strings: the string elements of the document, in
document order, restricted to the translatable ones. -/
def getTranslatableStrings (root : List StringTag) : List StringTag :=
  root.filter isTranslatable

/-- Serialization of one attribute as ElementTree renders it. -/
def renderAttr (a : Str × Str) : Str :=
  [' '] ++ a.1 ++ ['=', '"'] ++ a.2 ++ ['"']

/-- The opening token of a serialized string element. -/
def OPENTAG : Str := "<string".toList

/-- The closing tag of a serialized string element. -/
def CLOSETAG : Str := "</string>".toList

/-- ET.tostring for one string element (flat text, no escaping needed for
the character sets the claims exercise): the opening tag with the
attributes, then either a self-closing end for an element without text or
the text followed by the closing tag. -/
def tostring (t : StringTag) : Str :=
  OPENTAG ++ (t.attrs.map renderAttr).flatten ++
    match t.text with
    | none => " />".toList
    | some s => ['>'] ++ s ++ CLOSETAG

/-- The serialized fragment for a record as _worker_translate builds it:
ET.tostring(tag).strip(). -/
def fragOf (t : StringTag) : Str := pyStrip (tostring t)

/-- Parse one attribute of the form name="value" and return it with the
rest of the input. -/
def splitAttr (s : Str) : Option ((Str × Str) × Str) :=
  let nm := s.takeWhile (fun c => !(c == '=' || c == '>' || c == ' ' || c == '"'))
  match s.dropWhile (fun c => !(c == '=' || c == '>' || c == ' ' || c == '"')) with
  | '=' :: '"' :: r =>
    let v := r.takeWhile (fun c => !(c == '"'))
    (match r.dropWhile (fun c => !(c == '"')) with
     | '"' :: r2 => if nm.isEmpty then none else some ((nm, v), r2)
     | _ => none)
  | _ => none

/-- Parse the attribute list after the opening token, ending either at '>'
(returns false, meaning an element with a body) or at ' />' (returns true,
meaning a self-closing element).  Fuel bounds the number of attributes. -/
def parseAttrsAux : Nat → Str → Option (List (Str × Str) × Bool × Str)
  | _, '>' :: r => some ([], false, r)
  | _, ' ' :: '/' :: '>' :: r => some ([], true, r)
  | fuel+1, ' ' :: r =>
    (match splitAttr r with
     | some (a, r2) =>
       (match parseAttrsAux fuel r2 with
        | some (as, b, r3) => some (a :: as, b, r3)
        | none => none)
     | none => none)
  | _, _ => none

/-- ET.fromstring for one string fragment: succeeds on a well-formed
string element with flat text and fails (models ET.ParseError) on
anything else.  Empty text yields none, as ElementTree does. -/
def fromstring (s : Str) : Option StringTag :=
  if OPENTAG.isPrefixOf s then
    (match parseAttrsAux (s.drop OPENTAG.length).length (s.drop OPENTAG.length) with
     | some (as, true, r2) => if r2.isEmpty then some ⟨as, none⟩ else none
     | some (as, false, r2) =>
       (let tlen := r2.length - CLOSETAG.length
        if decide (CLOSETAG.length ≤ r2.length) && r2.drop tlen == CLOSETAG
            && !(r2.take tlen).contains '<' then
          some ⟨as, if (r2.take tlen).isEmpty then none else some (r2.take tlen)⟩
        else none)
     | none => none)
  else none

/-- The per-record body of the loop in _update_tags_from_response
(lines 434-441): parse the stripped fragment; on success overwrite the
record's text with the translated text, on ET.ParseError overwrite it
with the sentinel followed by the prior text. -/
def applyOne (tag : StringTag) (frag : Str) : StringTag :=
  match fromstring (pyStrip frag) with
  | some t => { tag with text := t.text }
  | none => { tag with text := some (SENTINEL ++ pyFormatOptStr tag.text) }

/-- _update_tags_from_response (lines 427-441): split the response on
XML_SEPARATOR; if the fragment count differs from the record count return
none (the function returns False and the run is aborted), otherwise apply
each fragment to the record at the same position and return the updated
batch (the function returns True). -/
def updateTags (tags : List StringTag) (resp : Str) : Option (List StringTag) :=
  if (splitOnSeq XML_SEPARATOR resp).length = tags.length then
    some (List.zipWith applyOne tags (splitOnSeq XML_SEPARATOR resp))
  else none

/-- Fuel-driven worker for chunks; fuel is always at least the list
length, making the fuel-exhaustion branch unreachable. -/
def chunksGo {α : Type} (n : Nat) : Nat → List α → List (List α)
  | _, [] => []
  | 0, l => [l]
  | fuel+1, l => l.take n :: chunksGo n fuel (l.drop n)

/-- The batch partition of _worker_translate (line 460):
strings_to_translate[i:i+BATCH_SIZE] for i in range(0, total, BATCH_SIZE). -/
def chunks {α : Type} (n : Nat) (l : List α) : List (List α) :=
  chunksGo n l.length l

/-- The batch loop of _worker_translate (lines 460-485), started at call
index i on the remaining batches.  For each batch: obtain the adapter's
response from the oracle; if it contains "ERROR_" abort the run, leaving
this and all later batches untouched and reporting the failing batch
index; otherwise run _update_tags_from_response, aborting the same way
when it reports a cardinality mismatch, and on success keep the updated
batch and continue with the next one. -/
def runBatches (oracle : Nat → Str) : Nat → List (List StringTag) → List StringTag × Option Nat
  | _, [] => ([], none)
  | i, b :: bs =>
    if containsSeq ERRMARK (oracle i) then ((b :: bs).flatten, some i)
    else
      match updateTags b (oracle i) with
      | none => ((b :: bs).flatten, some i)
      | some b2 =>
        let r := runBatches oracle (i+1) bs
        (b2 ++ r.1, r.2)

/-- The translation run of _worker_translate over an already-filtered
list of translatable records: partition into batches of BATCH_SIZE and
process them in order.  Returns the final record list and, when the run
aborted, the index of the failing batch. -/
def workerTranslate (oracle : Nat → Str) (records : List StringTag) :
    List StringTag × Option Nat :=
  runBatches oracle 0 (chunks BATCH_SIZE records)

/-- The record list produced by a run that applied the first k batches
and then aborted: batches before k are replaced by their updated versions
and every batch from k on is kept unchanged. -/
def applyBatchesUpTo (oracle : Nat → Str) : Nat → Nat → List (List StringTag) → List StringTag
  | _, _, [] => []
  | _, 0, bs => bs.flatten
  | i, k+1, b :: bs => (updateTags b (oracle i)).getD b ++ applyBatchesUpTo oracle (i+1) k bs

/-- The AppState enum of ApkTranslator.py (lines 30-37). -/
inductive AppState
  | INITIAL
  | APK_SELECTED
  | DECOMPILED
  | STRINGS_EXTRACTED
  | TRANSLATION_COMPLETE
  | SAVED
  | RECOMPILED
deriving DecidableEq, Fintype

/-- The seven user-visible stages of the workflow. -/
inductive Stage
  | select
  | decompile
  | extract
  | translate
  | save
  | recompile
  | sign
deriving DecidableEq, Fintype

/-- The state set_state moves to when the given stage succeeds: each
worker calls set_state with the next state only in its success branch
(sign resets to INITIAL after cleanup, line 553). -/
def nextState : Stage → AppState
  | .select => .APK_SELECTED
  | .decompile => .DECOMPILED
  | .extract => .STRINGS_EXTRACTED
  | .translate => .TRANSLATION_COMPLETE
  | .save => .SAVED
  | .recompile => .RECOMPILED
  | .sign => .INITIAL

/-- The state after a stage runs: every worker advances the machine only
on success and leaves it unchanged on failure. -/
def stageStateAfter (s : Stage) (ok : Bool) (st : AppState) : AppState :=
  if ok then nextState s else st

/-- The state_map of _update_ui_for_state (lines 310-318): which gated
stage each state enables (step1, the select stage, is not gated and is
not in the buttons list). -/
def stateAllows (st : AppState) (s : Stage) : Bool :=
  match st, s with
  | .APK_SELECTED, .decompile => true
  | .DECOMPILED, .extract => true
  | .STRINGS_EXTRACTED, .translate => true
  | .TRANSLATION_COMPLETE, .save => true
  | .SAVED, .recompile => true
  | .RECOMPILED, .sign => true
  | _, _ => false

/-- Whether a gated stage can be entered: with expert mode on every
button is enabled (lines 305-307), otherwise only the buttons listed for
the current state are enabled. -/
def canRun (expert : Bool) (st : AppState) (s : Stage) : Bool :=
  expert || stateAllows st s

/-- The workflow-state effect of one full run of _worker_translate: an
empty translatable list returns early without touching the state
(lines 448-451); a completed run moves to TRANSLATION_COMPLETE
(line 490); an aborted run returns without a state change
(lines 470-478). -/
def translateStateAfter (oracle : Nat → Str) (root : List StringTag) (st : AppState) :
    AppState :=
  if (getTranslatableStrings root).isEmpty then st
  else if (workerTranslate oracle (getTranslatableStrings root)).2 = none then
    AppState.TRANSLATION_COMPLETE
  else st

/-- The outcome of one network attempt inside translate_text_with_ai:
a successful generate_content call, a requests ReadTimeout or
ConnectionError, or any other exception with its message. -/
inductive AttemptOutcome
  | success (text : Str)
  | netError (msg : Str)
  | apiError (msg : Str)
deriving DecidableEq

/-- Python str.lower restricted to the ASCII messages the classifier
inspects. -/
def lowerStr (s : Str) : Str := s.map Char.toLower

/-- The rate-limit classifier of translate_text_with_ai (line 134):
"resource_exhausted" or "rate limit" occurs in the lowered message. -/
def isRateLimitMsg (msg : Str) : Bool :=
  containsSeq ("resource_exhausted".toList) (lowerStr msg) ||
  containsSeq ("rate limit".toList) (lowerStr msg)

/-- The retry loop of translate_text_with_ai (lines 118-143), with i the
current attempt index and the second argument the number of attempts
still available.  A success returns response.text.strip().  A network
error sleeps and retries unless this was the last attempt, in which case
it returns the ERROR_TIMEOUT failure.  Any other exception retries the
same way when classified as a rate limit, and otherwise returns the
ERROR_UNEXPECTED failure at once. -/
def aiAttempts (attempts : Nat → AttemptOutcome) : Nat → Nat → Str
  | _, 0 => "ERROR_MAX_RETRIES_REACHED".toList
  | i, fuel+1 =>
    match attempts i with
    | .success t => pyStrip t
    | .netError e =>
      if fuel = 0 then "ERROR_TIMEOUT: ".toList ++ e
      else aiAttempts attempts (i+1) fuel
    | .apiError e =>
      if isRateLimitMsg e then
        if fuel = 0 then "ERROR_RATE_LIMIT".toList
        else aiAttempts attempts (i+1) fuel
      else "ERROR_UNEXPECTED: ".toList ++ e

/-- translate_text_with_ai (lines 84-143): an empty or whitespace-only
payload returns the empty string without any network call; otherwise the
retry loop runs with the full attempt budget. -/
def translateTextWithAI (attempts : Nat → AttemptOutcome) (payload : Str) : Str :=
  if payload.isEmpty then []
  else if payload.all isWS then []
  else aiAttempts attempts 0 API_MAX_RETRIES

/-! ### Concrete inputs used by the witnesses and counterexamples -/

/-- A concrete translatable record. -/
def tagHello : StringTag := ⟨[("name".toList, "hello".toList)], some "Hello".toList⟩

/-- A second concrete translatable record. -/
def tagWorld : StringTag := ⟨[("name".toList, "world".toList)], some "World".toList⟩

/-- A well-formed translated fragment for tagHello. -/
def respShalom : Str := "<string name=\"hello\">Shalom</string>".toList

/-- tagHello after the translated fragment respShalom is applied. -/
def tagShalom : StringTag := ⟨[("name".toList, "hello".toList)], some "Shalom".toList⟩

/-- A record whose text is exactly the format placeholder of the spec
scenario. -/
def tagPercent : StringTag := ⟨[("name".toList, "fmt".toList)], some "%1$s".toList⟩

/-- A record whose text is a single space: whitespace-only but truthy. -/
def tagSpace : StringTag := ⟨[("name".toList, "sp".toList)], some " ".toList⟩

/-- A record whose text contains the separator token. -/
def tagSep : StringTag := ⟨[("name".toList, "a".toList)], some "x\n---\ny".toList⟩

/-- An adapter oracle that returns a terminal rate-limit failure. -/
def oracleErr : Nat → Str := fun _ => "ERROR_RATE_LIMIT".toList

/-- A well-formed single-fragment payload whose translated text contains
the substring "ERROR_". -/
def respErrText : Str := "<string name=\"e\">See ERROR_CODE</string>".toList

/-- The record matching respErrText's request. -/
def tagE : StringTag := ⟨[("name".toList, "e".toList)], some "Err".toList⟩

/-- The oracle returning respErrText. -/
def oracleErrText : Nat → Str := fun _ => respErrText

/-- Attempt outcomes whose first attempt raises a non-rate-limit error
and whose later attempts would succeed. -/
def attemptsBoom : Nat → AttemptOutcome :=
  fun i => if i = 0 then .apiError "boom".toList else .success "ok".toList

/-- A non-blank request payload. -/
def payloadX : Str := "<string name=\"hello\">Hello</string>".toList

/-- A two-fragment response whose first fragment is malformed and whose
second fragment is well-formed. -/
def respBadFrag : Str :=
  ("junk" ++ "\n---\n" ++ "<string name=\"world\">Olam</string>").toList

/-- A two-fragment response whose first fragment is malformed and
contains the substring "ERROR_". -/
def respBadErr : Str :=
  ("ERROR_junk" ++ "\n---\n" ++ "<string name=\"world\">Olam</string>").toList

/-- The oracle returning respBadErr. -/
def oracleBadErr : Nat → Str := fun _ => respBadErr

/-- tagWorld after the translated fragment of respBadFrag is applied. -/
def tagOlam : StringTag := ⟨[("name".toList, "world".toList)], some "Olam".toList⟩

/-! ### Helper lemmas -/

theorem chunksGo_flatten {α : Type} (n : Nat) :
    ∀ (fuel : Nat) (l : List α), (chunksGo n fuel l).flatten = l := by
  intro fuel
  induction fuel with
  | zero =>
    intro l
    cases l with
    | nil => rfl
    | cons c rest => simp [chunksGo]
  | succ fuel ih =>
    intro l
    cases l with
    | nil => rfl
    | cons c rest =>
      simp only [chunksGo, List.flatten_cons, ih]
      exact List.take_append_drop n (c :: rest)

theorem chunks_flatten {α : Type} (n : Nat) (l : List α) :
    (chunks n l).flatten = l :=
  chunksGo_flatten n l.length l

theorem chunksGo_mem_length {α : Type} (n : Nat) (hn : 0 < n) :
    ∀ (fuel : Nat) (l b : List α), l.length ≤ fuel →
      b ∈ chunksGo n fuel l → b.length ≤ n := by
  intro fuel
  induction fuel with
  | zero =>
    intro l b hl hb
    have hnil : l = [] := List.eq_nil_of_length_eq_zero (Nat.le_zero.mp hl)
    subst hnil
    simp [chunksGo] at hb
  | succ fuel ih =>
    intro l b hl hb
    cases l with
    | nil => simp [chunksGo] at hb
    | cons c rest =>
      simp only [chunksGo, List.mem_cons] at hb
      rcases hb with rfl | hb
      · simp only [List.length_take]
        exact Nat.min_le_left n _
      · refine ih _ _ ?_ hb
        simp only [List.length_drop, List.length_cons] at *
        omega

theorem chunks_mem_length {α : Type} (n : Nat) (hn : 0 < n) (l b : List α)
    (hb : b ∈ chunks n l) : b.length ≤ n :=
  chunksGo_mem_length n hn l.length l b (Nat.le_refl _) hb

theorem mem_of_mem_chunks {α : Type} (n : Nat) (l b : List α) (x : α)
    (hb : b ∈ chunks n l) (hx : x ∈ b) : x ∈ l := by
  have : x ∈ (chunks n l).flatten := List.mem_flatten_of_mem hb hx
  rwa [chunks_flatten] at this

theorem zipWith_getD {α β γ : Type} (f : α → β → γ) (da : α) (db : β) (dc : γ) :
    ∀ (l1 : List α) (l2 : List β) (i : Nat), i < l1.length → i < l2.length →
      (List.zipWith f l1 l2).getD i dc = f (l1.getD i da) (l2.getD i db) := by
  intro l1
  induction l1 with
  | nil => intro l2 i h1 h2; simp at h1
  | cons a t1 ih =>
    intro l2 i h1 h2
    cases l2 with
    | nil => simp at h2
    | cons b t2 =>
      cases i with
      | zero => rfl
      | succ i =>
        simp only [List.zipWith_cons_cons, List.getD_cons_succ]
        refine ih t2 i ?_ ?_
        · simpa using Nat.lt_of_succ_lt_succ h1
        · simpa using Nat.lt_of_succ_lt_succ h2

theorem updateTags_eq_some (tags : List StringTag) (resp : Str)
    (hlen : (splitOnSeq XML_SEPARATOR resp).length = tags.length) :
    updateTags tags resp =
      some (List.zipWith applyOne tags (splitOnSeq XML_SEPARATOR resp)) := by
  simp [updateTags, hlen]

theorem updateTags_some_elim (tags : List StringTag) (resp : Str) (out : List StringTag)
    (h : updateTags tags resp = some out) :
    (splitOnSeq XML_SEPARATOR resp).length = tags.length ∧
      out = List.zipWith applyOne tags (splitOnSeq XML_SEPARATOR resp) := by
  by_cases hlen : (splitOnSeq XML_SEPARATOR resp).length = tags.length
  · rw [updateTags_eq_some tags resp hlen] at h
    exact ⟨hlen, (Option.some.inj h).symm⟩
  · simp [updateTags, hlen] at h

theorem applyOne_parse_ok (tag : StringTag) (frag : Str) (t : StringTag)
    (h : fromstring (pyStrip frag) = some t) :
    applyOne tag frag = { tag with text := t.text } := by
  simp [applyOne, h]

theorem applyOne_parse_fail (tag : StringTag) (frag : Str)
    (h : fromstring (pyStrip frag) = none) :
    applyOne tag frag = { tag with text := some (SENTINEL ++ pyFormatOptStr tag.text) } := by
  simp [applyOne, h]

/-! ### Claims -/

/-- Claim C4, counterexample: a record whose fragment translates
successfully has its single text field overwritten with the translated
text; the original source text "Hello" is no longer stored anywhere on
the record, so the source text is not immutable and there is no separate
translatedText field. -/
theorem source_text_overwritten_cex :
    updateTags [tagHello] respShalom = some [tagShalom] ∧
    tagShalom.text ≠ tagHello.text ∧
    tagShalom.text = some "Shalom".toList := by decide

/-- Claim C4 (amended): the translation stage writes the translated text
into the record's single text field in place, overwriting the source
text on success; the attribute list is never touched; the prior text is
retained, behind the sentinel, only for records whose fragment failed to
parse. -/
theorem translation_overwrites_text_in_place (tag : StringTag) (frag : Str) :
    (applyOne tag frag).attrs = tag.attrs ∧
    (∀ t, fromstring (pyStrip frag) = some t →
      applyOne tag frag = { tag with text := t.text }) ∧
    (fromstring (pyStrip frag) = none →
      (applyOne tag frag).text = some (SENTINEL ++ pyFormatOptStr tag.text)) := by
  refine ⟨?_, ?_, ?_⟩
  · unfold applyOne
    cases fromstring (pyStrip frag) <;> rfl
  · intro t h
    exact applyOne_parse_ok tag frag t h
  · intro h
    rw [applyOne_parse_fail tag frag h]

/-- Witness for the amended C4 theorem at a concrete record and
fragment. -/
theorem translation_overwrites_text_in_place_witness :
    (applyOne tagHello respShalom).attrs = tagHello.attrs ∧
    applyOne tagHello respShalom = { tagHello with text := tagShalom.text } :=
  ⟨(translation_overwrites_text_in_place tagHello respShalom).1,
   (translation_overwrites_text_in_place tagHello respShalom).2.1 tagShalom (by decide)⟩

/-- Claim C5, counterexample: the first attempt raises an error that is
neither a rate limit nor a network timeout, and the adapter returns the
terminal ERROR_UNEXPECTED failure at once, even though the remaining two
attempts of the budget would have succeeded. -/
theorem unexpected_error_no_retry_cex :
    translateTextWithAI attemptsBoom payloadX = "ERROR_UNEXPECTED: boom".toList ∧
    attemptsBoom 1 = AttemptOutcome.success "ok".toList ∧
    attemptsBoom 2 = AttemptOutcome.success "ok".toList ∧
    isRateLimitMsg "boom".toList = false := by decide

/-- Claim C5 (amended): an error that is neither a rate limit nor a
network timeout is terminal immediately: whenever the first attempt
raises such an error on a non-blank payload, the adapter returns the
ERROR_UNEXPECTED failure without consuming any further attempt of the
budget. -/
theorem unexpected_error_terminal_immediately (attempts : Nat → AttemptOutcome)
    (payload e : Str)
    (hne : payload.isEmpty = false) (hws : payload.all isWS = false)
    (h0 : attempts 0 = AttemptOutcome.apiError e) (hrl : isRateLimitMsg e = false) :
    translateTextWithAI attempts payload = "ERROR_UNEXPECTED: ".toList ++ e := by
  unfold translateTextWithAI
  rw [if_neg (by simp [hne]), if_neg (by simp [hws])]
  show aiAttempts attempts 0 (Nat.succ 2) = _
  rw [aiAttempts, h0]
  simp [hrl]

/-- Witness for the amended C5 theorem at the concrete attempt
sequence. -/
theorem unexpected_error_terminal_immediately_witness :
    attemptsBoom 0 = AttemptOutcome.apiError "boom".toList ∧
    translateTextWithAI attemptsBoom payloadX = "ERROR_UNEXPECTED: ".toList ++ "boom".toList :=
  ⟨by decide,
   unexpected_error_terminal_immediately attemptsBoom payloadX "boom".toList
     (by decide) (by decide) (by decide) (by decide)⟩

/-- Claim C6, counterexample: a record whose text is a single space is
whitespace-only, yet _get_translatable_strings keeps it (the filter only
tests Python truthiness, which a nonempty whitespace string passes), so
it lands in a batch. -/
theorem whitespace_record_not_skipped_cex :
    isTranslatable tagSpace = true ∧
    getTranslatableStrings [tagSpace] = [tagSpace] ∧
    chunks BATCH_SIZE (getTranslatableStrings [tagSpace]) = [[tagSpace]] := by decide

/-- Claim C6 (amended): a record whose text is missing or empty, or
contains a '%' together with an 's' or a 'd' (the placeholder
heuristic), is excluded by the partition step: it is not in the
translatable list and appears in no batch.  Whitespace-only but
nonempty texts are not excluded. -/
theorem empty_or_placeholder_excluded (root : List StringTag) (t : StringTag)
    (h : t.text = none ∨ t.text = some [] ∨
      ∃ s, t.text = some s ∧ s.contains '%' = true ∧
        (s.contains 's' || s.contains 'd') = true) :
    t ∉ getTranslatableStrings root ∧
    ∀ b, b ∈ chunks BATCH_SIZE (getTranslatableStrings root) → t ∉ b := by
  have ht : isTranslatable t = false := by
    rcases h with h | h | ⟨s, hs, h1, h2⟩
    · simp [isTranslatable, h]
    · simp [isTranslatable, h]
    · have h1' : '%' ∈ s := by simpa using h1
      have h2' : 's' ∈ s ∨ 'd' ∈ s := by simpa using h2
      simp only [isTranslatable, hs]
      simp
      intro _
      exact ⟨h1', fun hns => h2'.resolve_left hns⟩
  have hnot : t ∉ getTranslatableStrings root := by
    intro hmem
    unfold getTranslatableStrings at hmem
    have := (List.mem_filter.mp hmem).2
    rw [ht] at this
    exact Bool.false_ne_true this
  refine ⟨hnot, ?_⟩
  intro b hb hmem
  exact hnot (mem_of_mem_chunks BATCH_SIZE (getTranslatableStrings root) b t hb hmem)

/-- Witness for the amended C6 theorem: the spec's "%1$s" record is not
in the translatable list and not in the (single) batch built from a
document containing it. -/
theorem empty_or_placeholder_excluded_witness :
    tagPercent ∉ getTranslatableStrings [tagPercent, tagHello] ∧
    tagPercent ∉ [tagHello] :=
  ⟨(empty_or_placeholder_excluded [tagPercent, tagHello] tagPercent
      (Or.inr (Or.inr ⟨"%1$s".toList, rfl, by decide, by decide⟩))).1,
   (empty_or_placeholder_excluded [tagPercent, tagHello] tagPercent
      (Or.inr (Or.inr ⟨"%1$s".toList, rfl, by decide, by decide⟩))).2
     [tagHello] (by decide)⟩

/-- Claim C7: in state STRINGS_EXTRACTED with override (expert mode)
off, the save stage is not enterable, and in general every gated stage
(every stage except the ungated select) is enterable in exactly one
state when override is off. -/
theorem stage_gating_unique_state :
    canRun false AppState.STRINGS_EXTRACTED Stage.save = false ∧
    (∀ s : Stage, s ≠ Stage.select →
      ∃! st : AppState, canRun false st s = true) := by
  refine ⟨by decide, ?_⟩
  intro s hs
  cases s with
  | select => exact absurd rfl hs
  | decompile =>
    exact ⟨AppState.APK_SELECTED, by decide, fun y h => by revert h; cases y <;> decide⟩
  | extract =>
    exact ⟨AppState.DECOMPILED, by decide, fun y h => by revert h; cases y <;> decide⟩
  | translate =>
    exact ⟨AppState.STRINGS_EXTRACTED, by decide, fun y h => by revert h; cases y <;> decide⟩
  | save =>
    exact ⟨AppState.TRANSLATION_COMPLETE, by decide, fun y h => by revert h; cases y <;> decide⟩
  | recompile =>
    exact ⟨AppState.SAVED, by decide, fun y h => by revert h; cases y <;> decide⟩
  | sign =>
    exact ⟨AppState.RECOMPILED, by decide, fun y h => by revert h; cases y <;> decide⟩

/-- Witness for C7 at the save stage. -/
theorem stage_gating_unique_state_witness :
    Stage.save ≠ Stage.select ∧
    (∃! st : AppState, canRun false st Stage.save = true) :=
  ⟨by decide, stage_gating_unique_state.2 Stage.save (by decide)⟩

/-- Claim C8: no failure advances the workflow state machine.  Every
stage worker calls the state mutator only in its success branch, so a
failed stage leaves the machine in the state it was in; in particular an
aborted translation run leaves the state unchanged, so the stage can be
retried. -/
theorem failure_never_advances_state :
    (∀ (s : Stage) (st : AppState), stageStateAfter s false st = st) ∧
    (∀ (oracle : Nat → Str) (root : List StringTag) (st : AppState),
      (workerTranslate oracle (getTranslatableStrings root)).2 ≠ none →
      translateStateAfter oracle root st = st) := by
  constructor
  · intro s st
    rfl
  · intro oracle root st h
    unfold translateStateAfter
    by_cases he : (getTranslatableStrings root).isEmpty
    · simp [he]
    · simp [he, h]

/-- Witness for C8: a run aborted by a terminal adapter failure leaves
the machine in STRINGS_EXTRACTED. -/
theorem failure_never_advances_state_witness :
    stageStateAfter Stage.decompile false AppState.APK_SELECTED = AppState.APK_SELECTED ∧
    translateStateAfter oracleErr [tagHello] AppState.STRINGS_EXTRACTED =
      AppState.STRINGS_EXTRACTED :=
  ⟨failure_never_advances_state.1 Stage.decompile AppState.APK_SELECTED,
   failure_never_advances_state.2 oracleErr [tagHello] AppState.STRINGS_EXTRACTED
     (by decide)⟩

/-- Claim C10: the orchestrator classifies a batch result as terminal by
scanning the whole payload for the substring "ERROR_"; at this concrete
payload every fragment is well-formed, the fragment count equals the
record count, yet the run aborts at batch 0 with no record updated,
because the translated text happens to contain "ERROR_". -/
theorem error_marker_aborts_clean_payload :
    containsSeq ERRMARK respErrText = true ∧
    (splitOnSeq XML_SEPARATOR respErrText).length = 1 ∧
    (fromstring (pyStrip respErrText)).isSome = true ∧
    (updateTags [tagE] respErrText).isSome = true ∧
    workerTranslate oracleErrText [tagE] = ([tagE], some 0) := by decide

theorem runBatches_abort (oracle : Nat → Str) :
    ∀ (k i : Nat) (bs : List (List StringTag)),
      k < bs.length →
      (containsSeq ERRMARK (oracle (i+k)) = true ∨
        updateTags (bs.getD k []) (oracle (i+k)) = none) →
      (∀ j, j < k → containsSeq ERRMARK (oracle (i+j)) = false ∧
        updateTags (bs.getD j []) (oracle (i+j)) ≠ none) →
      runBatches oracle i bs = (applyBatchesUpTo oracle i k bs, some (i+k)) := by
  intro k
  induction k with
  | zero =>
    intro i bs hk hfail hok
    cases bs with
    | nil => simp at hk
    | cons b rest =>
      simp only [Nat.add_zero, List.getD_cons_zero] at hfail
      by_cases hc : containsSeq ERRMARK (oracle i) = true
      · simp [runBatches, hc, applyBatchesUpTo]
      · have hu : updateTags b (oracle i) = none := by
          rcases hfail with h | h
          · exact absurd h hc
          · exact h
        simp [runBatches, hc, hu, applyBatchesUpTo]
  | succ k ih =>
    intro i bs hk hfail hok
    cases bs with
    | nil => simp at hk
    | cons b rest =>
      obtain ⟨hc0, hu0⟩ := hok 0 (Nat.succ_pos k)
      simp only [Nat.add_zero, List.getD_cons_zero] at hc0 hu0
      obtain ⟨b2, hb2⟩ := Option.ne_none_iff_exists'.mp hu0
      have harith : i + 1 + k = i + (k + 1) := by omega
      have hrec : runBatches oracle (i+1) rest =
          (applyBatchesUpTo oracle (i+1) k rest, some (i+1+k)) := by
        refine ih (i+1) rest ?_ ?_ ?_
        · simpa using Nat.lt_of_succ_lt_succ hk
        · rw [harith]
          simpa only [List.getD_cons_succ] using hfail
        · intro j hj
          have := hok (j+1) (Nat.succ_lt_succ hj)
          have harith2 : i + 1 + j = i + (j + 1) := by omega
          rw [harith2]
          simpa only [List.getD_cons_succ] using this
      simp only [runBatches, hc0, Bool.false_eq_true, if_false, hb2, hrec]
      simp only [applyBatchesUpTo, hb2, Option.getD_some]
      rw [harith]

/-- Claim C1: when batch k is the first failing batch — its response
contains the terminal failure marker, or splits into a fragment count
different from its record count — the run aborts there: the result is
exactly the first k batches with their updates applied, every record of
batch k and of all later batches unchanged, and the failing batch index
is reported. -/
theorem translate_aborts_on_failed_batch (oracle : Nat → Str)
    (records : List StringTag) (k : Nat)
    (hk : k < (chunks BATCH_SIZE records).length)
    (hfail : containsSeq ERRMARK (oracle k) = true ∨
      updateTags ((chunks BATCH_SIZE records).getD k []) (oracle k) = none)
    (hok : ∀ j, j < k → containsSeq ERRMARK (oracle j) = false ∧
      updateTags ((chunks BATCH_SIZE records).getD j []) (oracle j) ≠ none) :
    workerTranslate oracle records =
      (applyBatchesUpTo oracle 0 k (chunks BATCH_SIZE records), some k) := by
  have h := runBatches_abort oracle k 0 (chunks BATCH_SIZE records) hk
    (by simpa using hfail) (fun j hj => by simpa using hok j hj)
  simpa [workerTranslate] using h

/-- Witness for C1: a one-batch run whose adapter call returns a terminal
rate-limit failure aborts at batch 0 with the record untouched. -/
theorem translate_aborts_on_failed_batch_witness :
    containsSeq ERRMARK (oracleErr 0) = true ∧
    workerTranslate oracleErr [tagHello] =
      (applyBatchesUpTo oracleErr 0 0 (chunks BATCH_SIZE [tagHello]), some 0) :=
  ⟨by decide,
   translate_aborts_on_failed_batch oracleErr [tagHello] 0 (by decide)
     (Or.inl (by decide)) (fun j hj => absurd hj (Nat.not_lt_zero j))⟩

/-- Claim C2: partitioning the translatable records into batches of at
most BATCH_SIZE and concatenating the batches in order reproduces the
translatable records exactly (no reordering, duplication or loss), and a
successful batch update applies fragment i to record i by position. -/
theorem partition_preserves_order_and_position (root : List StringTag) :
    (chunks BATCH_SIZE (getTranslatableStrings root)).flatten =
      getTranslatableStrings root ∧
    (∀ b, b ∈ chunks BATCH_SIZE (getTranslatableStrings root) →
      b.length ≤ BATCH_SIZE) ∧
    (∀ (tags : List StringTag) (resp : Str) (out : List StringTag) (i : Nat),
      updateTags tags resp = some out → i < tags.length →
      out.getD i dTag =
        applyOne (tags.getD i dTag) ((splitOnSeq XML_SEPARATOR resp).getD i [])) := by
  refine ⟨chunks_flatten BATCH_SIZE _, ?_, ?_⟩
  · intro b hb
    exact chunks_mem_length BATCH_SIZE (by decide) _ b hb
  · intro tags resp out i hsome hi
    obtain ⟨hlen, hout⟩ := updateTags_some_elim tags resp out hsome
    subst hout
    exact zipWith_getD applyOne dTag [] dTag tags _ i hi (by rw [hlen]; exact hi)

/-- Witness for C2 at a concrete document and a concrete one-record
batch update. -/
theorem partition_preserves_order_and_position_witness :
    (chunks BATCH_SIZE (getTranslatableStrings [tagHello, tagWorld])).flatten =
      getTranslatableStrings [tagHello, tagWorld] ∧
    [tagShalom].getD 0 dTag =
      applyOne ([tagHello].getD 0 dTag) ((splitOnSeq XML_SEPARATOR respShalom).getD 0 []) :=
  ⟨(partition_preserves_order_and_position [tagHello, tagWorld]).1,
   (partition_preserves_order_and_position [tagHello, tagWorld]).2.2
     [tagHello] respShalom [tagShalom] 0 (by decide) (by decide)⟩

/-- Claim C3, counterexample: a two-fragment response whose fragment
count matches the two-record batch and whose only malformed fragment
contains the substring "ERROR_" makes the orchestrator abort the whole
run before the per-fragment recovery ever runs: no record is marked
failed, no record is translated, and the run does not continue. -/
theorem bad_fragment_with_error_marker_aborts_cex :
    (splitOnSeq XML_SEPARATOR respBadErr).length = 2 ∧
    fromstring (pyStrip ((splitOnSeq XML_SEPARATOR respBadErr).getD 0 [])) = none ∧
    (fromstring (pyStrip ((splitOnSeq XML_SEPARATOR respBadErr).getD 1 []))).isSome = true ∧
    workerTranslate oracleBadErr [tagHello, tagWorld] =
      ([tagHello, tagWorld], some 0) := by decide

/-- Claim C3 (amended): for a batch response that does not contain the
terminal marker "ERROR_", whose fragment count matches the request and
in which exactly one fragment (the one at position i) fails to parse,
the update succeeds: record i alone is marked failed with the sentinel
prepended to its prior text, every other record receives its translated
text with attributes untouched, and the orchestrator continues with the
next batch instead of aborting. -/
theorem single_bad_fragment_recovered (tags : List StringTag) (resp : Str) (i : Nat)
    (hi : i < tags.length)
    (hlen : (splitOnSeq XML_SEPARATOR resp).length = tags.length)
    (hbad : fromstring (pyStrip ((splitOnSeq XML_SEPARATOR resp).getD i [])) = none)
    (hgood : ∀ j, j < tags.length → j ≠ i →
      (fromstring (pyStrip ((splitOnSeq XML_SEPARATOR resp).getD j []))).isSome = true) :
    ∃ out, updateTags tags resp = some out ∧
      out.length = tags.length ∧
      (out.getD i dTag).text =
        some (SENTINEL ++ pyFormatOptStr ((tags.getD i dTag).text)) ∧
      (out.getD i dTag).attrs = (tags.getD i dTag).attrs ∧
      (∀ j, j < tags.length → j ≠ i →
        ∃ t2, fromstring (pyStrip ((splitOnSeq XML_SEPARATOR resp).getD j [])) = some t2 ∧
          (out.getD j dTag).text = t2.text ∧
          (out.getD j dTag).attrs = (tags.getD j dTag).attrs) ∧
      (∀ (oracle : Nat → Str) (bs : List (List StringTag)) (k : Nat),
        oracle k = resp → containsSeq ERRMARK resp = false →
        runBatches oracle k (tags :: bs) =
          (out ++ (runBatches oracle (k+1) bs).1, (runBatches oracle (k+1) bs).2)) := by
  refine ⟨List.zipWith applyOne tags (splitOnSeq XML_SEPARATOR resp),
    updateTags_eq_some tags resp hlen, ?_, ?_, ?_, ?_, ?_⟩
  · rw [List.length_zipWith, hlen, Nat.min_self]
  · rw [zipWith_getD applyOne dTag [] dTag tags _ i hi (by rw [hlen]; exact hi)]
    rw [applyOne_parse_fail _ _ hbad]
  · rw [zipWith_getD applyOne dTag [] dTag tags _ i hi (by rw [hlen]; exact hi)]
    rw [applyOne_parse_fail _ _ hbad]
  · intro j hj hne
    obtain ⟨t2, ht2⟩ := Option.isSome_iff_exists.mp (hgood j hj hne)
    refine ⟨t2, ht2, ?_, ?_⟩
    · rw [zipWith_getD applyOne dTag [] dTag tags _ j hj (by rw [hlen]; exact hj)]
      rw [applyOne_parse_ok _ _ _ ht2]
    · rw [zipWith_getD applyOne dTag [] dTag tags _ j hj (by rw [hlen]; exact hj)]
      rw [applyOne_parse_ok _ _ _ ht2]
  · intro oracle bs k hk hno
    simp only [runBatches, hk, hno, Bool.false_eq_true, if_false,
      updateTags_eq_some tags resp hlen]

/-- Witness for the amended C3 theorem at a concrete two-record batch:
the first fragment is malformed, the second is well-formed. -/
theorem single_bad_fragment_recovered_witness :
    ∃ out, updateTags [tagHello, tagWorld] respBadFrag = some out ∧
      out.length = ([tagHello, tagWorld] : List StringTag).length ∧
      (out.getD 0 dTag).text =
        some (SENTINEL ++ pyFormatOptStr ((([tagHello, tagWorld] : List StringTag).getD 0 dTag).text)) ∧
      (out.getD 0 dTag).attrs = (([tagHello, tagWorld] : List StringTag).getD 0 dTag).attrs ∧
      (∀ j, j < ([tagHello, tagWorld] : List StringTag).length → j ≠ 0 →
        ∃ t2, fromstring (pyStrip ((splitOnSeq XML_SEPARATOR respBadFrag).getD j [])) = some t2 ∧
          (out.getD j dTag).text = t2.text ∧
          (out.getD j dTag).attrs = (([tagHello, tagWorld] : List StringTag).getD j dTag).attrs) ∧
      (∀ (oracle : Nat → Str) (bs : List (List StringTag)) (k : Nat),
        oracle k = respBadFrag → containsSeq ERRMARK respBadFrag = false →
        runBatches oracle k ([tagHello, tagWorld] :: bs) =
          (out ++ (runBatches oracle (k+1) bs).1, (runBatches oracle (k+1) bs).2)) :=
  single_bad_fragment_recovered [tagHello, tagWorld] respBadFrag 0
    (by decide) (by decide) (by decide) (by decide)

theorem splitGo_fuel (sep : Str) :
    ∀ (f1 f2 : Nat) (s : Str), s.length ≤ f1 → s.length ≤ f2 →
      splitGo sep f1 s = splitGo sep f2 s := by
  intro f1
  induction f1 with
  | zero =>
    intro f2 s h1 h2
    have hnil : s = [] := List.eq_nil_of_length_eq_zero (Nat.le_zero.mp h1)
    subst hnil
    cases f2 <;> rfl
  | succ f1 ih =>
    intro f2 s h1 h2
    cases s with
    | nil => cases f2 <;> rfl
    | cons c rest =>
      cases f2 with
      | zero => simp at h2
      | succ f2 =>
        simp only [splitGo]
        by_cases hc : (!sep.isEmpty && sep.isPrefixOf (c :: rest)) = true
        · rw [if_pos hc, if_pos hc]
          have hl1 : (rest.drop (sep.length - 1)).length ≤ f1 := by
            simp only [List.length_drop]
            simp only [List.length_cons] at h1
            omega
          have hl2 : (rest.drop (sep.length - 1)).length ≤ f2 := by
            simp only [List.length_drop]
            simp only [List.length_cons] at h2
            omega
          rw [ih f2 _ hl1 hl2]
        · rw [if_neg hc, if_neg hc]
          have hl1 : rest.length ≤ f1 := by
            simp only [List.length_cons] at h1; omega
          have hl2 : rest.length ≤ f2 := by
            simp only [List.length_cons] at h2; omega
          rw [ih f2 rest hl1 hl2]

theorem splitGo_no_occur (sep : Str) :
    ∀ (fuel : Nat) (s : Str), s.length ≤ fuel →
      (∀ i, sep.isPrefixOf (s.drop i) = false) →
      splitGo sep fuel s = [s] := by
  intro fuel
  induction fuel with
  | zero =>
    intro s h1 h
    have hnil : s = [] := List.eq_nil_of_length_eq_zero (Nat.le_zero.mp h1)
    subst hnil
    rfl
  | succ fuel ih =>
    intro s h1 h
    cases s with
    | nil => rfl
    | cons c rest =>
      have h0 : sep.isPrefixOf (c :: rest) = false := by
        have := h 0
        simpa using this
      simp only [splitGo]
      rw [if_neg (by simp [h0])]
      have hrest : splitGo sep fuel rest = [rest] := by
        refine ih rest ?_ ?_
        · simp only [List.length_cons] at h1; omega
        · intro i
          have := h (i+1)
          simpa [List.drop_succ_cons] using this
      rw [hrest]

theorem splitGo_chunk (sep : Str) (hsep : sep ≠ []) :
    ∀ (x : Str) (fuel : Nat) (rest : Str),
      x.length + sep.length + rest.length ≤ fuel →
      (∀ i, i < x.length → sep.isPrefixOf ((x ++ sep).drop i) = false) →
      splitGo sep fuel (x ++ sep ++ rest) = x :: splitGo sep rest.length rest := by
  intro x
  induction x with
  | nil =>
    intro fuel rest hf hx
    cases fuel with
    | zero =>
      exfalso
      have hpos : 0 < sep.length := List.length_pos.mpr hsep
      simp only [List.length_nil] at hf
      omega
    | succ fuel =>
      cases sep with
      | nil => exact absurd rfl hsep
      | cons c sep1 =>
        simp only [List.nil_append, List.cons_append]
        simp only [splitGo]
        rw [if_pos ?_]
        · congr 1
          have hdrop : (sep1 ++ rest).drop ((c :: sep1).length - 1) = rest := by
            simp only [List.length_cons, Nat.add_sub_cancel]
            exact List.drop_left sep1 rest
          rw [hdrop]
          refine splitGo_fuel _ fuel rest.length rest ?_ (Nat.le_refl _)
          simp only [List.length_nil, List.length_cons] at hf
          omega
        · simp only [Bool.and_eq_true]
          refine ⟨by simp, ?_⟩
          rw [List.isPrefixOf_iff_prefix]
          rw [show c :: (sep1 ++ rest) = (c :: sep1) ++ rest from rfl]
          exact List.prefix_append _ _
  | cons c x1 ih =>
    intro fuel rest hf hx
    cases fuel with
    | zero =>
      exfalso
      simp only [List.length_cons] at hf
      omega
    | succ fuel =>
      simp only [List.cons_append]
      simp only [splitGo]
      rw [if_neg ?_]
      · have hih : splitGo sep fuel (x1 ++ sep ++ rest) =
            x1 :: splitGo sep rest.length rest := by
          refine ih fuel rest ?_ ?_
          · simp only [List.length_cons] at hf; omega
          · intro i hi
            have := hx (i+1) (by simp only [List.length_cons]; omega)
            simpa [List.cons_append, List.drop_succ_cons] using this
        rw [hih]
      · intro hcond
        simp only [Bool.and_eq_true] at hcond
        have h2 := hcond.2
        rw [List.isPrefixOf_iff_prefix] at h2
        have h0 : sep.isPrefixOf ((c :: x1) ++ sep) = false := by
          have := hx 0 (by simp)
          simpa using this
        rw [Bool.eq_false_iff] at h0
        apply h0
        rw [List.isPrefixOf_iff_prefix]
        have hassoc : c :: (x1 ++ sep ++ rest) = ((c :: x1) ++ sep) ++ rest := by
          simp [List.append_assoc]
        rw [hassoc] at h2
        exact List.prefix_of_prefix_length_le h2 (List.prefix_append _ _)
          (by simp only [List.length_append, List.length_cons]; omega)

theorem intercalate_single (sep x : Str) : List.intercalate sep [x] = x := by
  simp [List.intercalate, List.intersperse]

theorem intercalate_cons_two (sep x y : Str) (l : List Str) :
    List.intercalate sep (x :: y :: l) = x ++ sep ++ List.intercalate sep (y :: l) := by
  simp [List.intercalate, List.intersperse, List.append_assoc]

theorem splitOnSeq_intercalate (sep : Str) (hsep : sep ≠ []) :
    ∀ (l : List Str), l ≠ [] →
      (∀ x ∈ l, ∀ i, i < x.length → sep.isPrefixOf ((x ++ sep).drop i) = false) →
      splitOnSeq sep (List.intercalate sep l) = l := by
  intro l
  induction l with
  | nil => intro h _; exact absurd rfl h
  | cons x l1 ih =>
    intro _ hocc
    cases l1 with
    | nil =>
      rw [intercalate_single]
      unfold splitOnSeq
      apply splitGo_no_occur sep x.length x (Nat.le_refl _)
      intro i
      by_cases hi : i < x.length
      · have hx := hocc x (by simp) i hi
        rw [Bool.eq_false_iff]
        intro hpre
        rw [List.isPrefixOf_iff_prefix] at hpre
        have htr : sep.isPrefixOf ((x ++ sep).drop i) = true := by
          rw [List.isPrefixOf_iff_prefix]
          rw [List.drop_append_of_le_length (Nat.le_of_lt hi)]
          exact hpre.trans (List.prefix_append _ _)
        rw [htr] at hx
        simp at hx
      · have hdrop : x.drop i = [] := List.drop_eq_nil_of_le (Nat.le_of_not_lt hi)
        rw [hdrop]
        cases sep with
        | nil => exact absurd rfl hsep
        | cons a b => rfl
    | cons y l2 =>
      rw [intercalate_cons_two]
      unfold splitOnSeq
      have hB := splitGo_chunk sep hsep x
        ((x ++ sep ++ List.intercalate sep (y :: l2)).length)
        (List.intercalate sep (y :: l2))
        (by simp only [List.length_append]; omega)
        (fun i hi => hocc x (by simp) i hi)
      rw [hB]
      congr 1
      have hI := ih (by simp) (fun z hz => hocc z (List.mem_cons_of_mem x hz))
      unfold splitOnSeq at hI
      exact hI

/-- Claim C9, counterexample: a well-formed fragment (it parses back to
its record) whose text contains the separator token: serializing the
one-record batch and splitting the unmodified echo yields two fragments,
not one, so the round trip fails and the separator can occur inside a
well-formed fragment's text. -/
theorem separator_in_fragment_cex :
    fromstring (fragOf tagSep) = some tagSep ∧
    splitOnSeq XML_SEPARATOR (List.intercalate XML_SEPARATOR [fragOf tagSep]) ≠
      [fragOf tagSep] ∧
    (splitOnSeq XML_SEPARATOR
      (List.intercalate XML_SEPARATOR [fragOf tagSep])).length = 2 := by
  decide

/-- Claim C9 (amended): for a non-empty batch, joining the serialized
fragments with XML_SEPARATOR and splitting the unmodified echo on the
same separator yields exactly the original fragments (hence exactly N of
them), provided the separator's first occurrence in each
fragment-plus-separator is at the fragment's end — in particular the
separator must not occur inside any fragment.  This proviso is not
implied by well-formedness: a well-formed fragment may contain the
separator in its text, in which case the round trip fails. -/
theorem round_trip_no_separator_occurrence (b : List StringTag) (hne : b ≠ [])
    (hsep : ∀ x ∈ b.map fragOf, ∀ i, i < x.length →
      XML_SEPARATOR.isPrefixOf ((x ++ XML_SEPARATOR).drop i) = false) :
    splitOnSeq XML_SEPARATOR (List.intercalate XML_SEPARATOR (b.map fragOf)) =
      b.map fragOf ∧
    (splitOnSeq XML_SEPARATOR
      (List.intercalate XML_SEPARATOR (b.map fragOf))).length = b.length := by
  have h := splitOnSeq_intercalate XML_SEPARATOR (by decide) (b.map fragOf)
    (by simpa using hne) hsep
  exact ⟨h, by rw [h, List.length_map]⟩

/-- Witness for the amended C9 theorem at a concrete two-record batch
whose fragments do not contain the separator. -/
theorem round_trip_no_separator_occurrence_witness :
    ([tagHello, tagWorld] : List StringTag) ≠ [] ∧
    splitOnSeq XML_SEPARATOR
        (List.intercalate XML_SEPARATOR ([tagHello, tagWorld].map fragOf)) =
      [tagHello, tagWorld].map fragOf :=
  ⟨by decide,
   (round_trip_no_separator_occurrence [tagHello, tagWorld] (by decide)
     (by decide)).1⟩
